import Mathlib

/-!
Verification of the shortwave-correction core of the Subgrid_radiation
repository (`src/subgrid_radiation/sun_position_comp.cpp`) against its
natural-language specification.

The C++ code is embedded shallowly: `double`/`float` arithmetic is modelled
over `ℝ` (exact arithmetic; the specification itself treats floating-point
accumulation as nondeterministic noise), flat vertex buffers become total
functions `ℕ → ℝ`, and the Embree occlusion backend - which is external to
the repository - is modelled from the spec as an abstract occlusion oracle
`occ : Ray → Bool` together with the documented `tfar` sign convention.
IEEE NaN, which the engines write to masked output cells, is modelled by an
explicit `FVal` type (a real number or NaN).
-/

namespace SunPos

noncomputable section

open Real

/-- Convert degree to radian, from `deg2rad` in the source:
`(ang / 180.0) * M_PI`. -/
def deg2rad (ang : ℝ) : ℝ := (ang / 180.0) * π

/-- Convert radian to degree, from `rad2deg` in the source:
`(ang / M_PI) * 180.0`. -/
def rad2deg (ang : ℝ) : ℝ := (ang / π) * 180.0

/-- Convert Kelvin to degree Celsius, from `K2degC` in the source. -/
def K2degC (temp : ℝ) : ℝ := temp - 273.15

/-- Linear index from 2D subscripts, from `lin_ind_2d` in the source:
`ind_0 * dim_1 + ind_1`. -/
def lin_ind_2d (dim_1 ind_0 ind_1 : ℕ) : ℕ := ind_0 * dim_1 + ind_1

/-- A three-component vector of `double`s, modelled over `ℝ`. -/
structure Vec3 where
  x : ℝ
  y : ℝ
  z : ℝ

/-- Euclidean magnitude of a vector, as computed inside `vec_unit`:
`sqrt (v_x * v_x + v_y * v_y + v_z * v_z)`. -/
def vecMag (v : Vec3) : ℝ := Real.sqrt (v.x * v.x + v.y * v.y + v.z * v.z)

/-- Unit vector, from `vec_unit` in the source: each component is divided
by the Euclidean magnitude. -/
def vec_unit (v : Vec3) : Vec3 :=
  let mag := Real.sqrt (v.x * v.x + v.y * v.y + v.z * v.z)
  ⟨v.x / mag, v.y / mag, v.z / mag⟩

/-- Cross product, from `cross_prod` in the source. -/
def cross_prod (a b : Vec3) : Vec3 :=
  ⟨a.y * b.z - a.z * b.y, a.z * b.x - a.x * b.z, a.x * b.y - a.y * b.x⟩

/-- Dot product of two vectors; the source writes it inline
(`a_x * b_x + a_y * b_y + a_z * b_z`). -/
def dotp (a b : Vec3) : ℝ := a.x * b.x + a.y * b.y + a.z * b.z

/-- Vector rotation by Rodrigues' formula, from `vec_rot` in the source. -/
def vec_rot (k : Vec3) (theta : ℝ) (v : Vec3) : Vec3 :=
  let cos_theta := Real.cos theta
  let sin_theta := Real.sin theta
  let part := (k.x * v.x + k.y * v.y + k.z * v.z) * (1.0 - cos_theta)
  ⟨v.x * cos_theta + (k.y * v.z - k.z * v.y) * sin_theta + k.x * part,
   v.y * cos_theta + (k.z * v.x - k.x * v.z) * sin_theta + k.y * part,
   v.z * cos_theta + (k.x * v.y - k.y * v.x) * sin_theta + k.z * part⟩

/-- Triangle surface normal and area, from `triangle_normal_area` in the
source: with `a = vert_2 - vert_1` and `b = vert_0 - vert_1` it computes
the cross product `a × b`, divides it by its magnitude to obtain the
normal, and returns half the magnitude as the area. -/
def triangle_normal_area (v0 v1 v2 : Vec3) : Vec3 × ℝ :=
  let a : Vec3 := ⟨v2.x - v1.x, v2.y - v1.y, v2.z - v1.z⟩
  let b : Vec3 := ⟨v0.x - v1.x, v0.y - v1.y, v0.z - v1.z⟩
  let norm : Vec3 := ⟨a.y * b.z - a.z * b.y, a.z * b.x - a.x * b.z,
    a.x * b.y - a.y * b.x⟩
  let mag := Real.sqrt (norm.x * norm.x + norm.y * norm.y + norm.z * norm.z)
  (⟨norm.x / mag, norm.y / mag, norm.z / mag⟩, mag / 2.0)

/-- Triangle centroid, from `triangle_centroid` in the source. -/
def triangle_centroid (v0 v1 v2 : Vec3) : Vec3 :=
  ⟨(v0.x + v1.x + v2.x) / 3.0, (v0.y + v1.y + v2.y) / 3.0,
   (v0.z + v1.z + v2.z) / 3.0⟩

/-- Vertex buffer offsets of the lower-left triangle of pixel
`(ind_0, ind_1)`, from `triangle_vert_ll` in the source. -/
def triangle_vert_ll (dim_1 ind_0 ind_1 : ℕ) : ℕ × ℕ × ℕ :=
  ((ind_0 * dim_1 + ind_1) * 3,
   (ind_0 * dim_1 + ind_1 + 1) * 3,
   ((ind_0 + 1) * dim_1 + ind_1) * 3)

/-- Vertex buffer offsets of the upper-right triangle of pixel
`(ind_0, ind_1)`, from `triangle_vert_ur` in the source. -/
def triangle_vert_ur (dim_1 ind_0 ind_1 : ℕ) : ℕ × ℕ × ℕ :=
  ((ind_0 * dim_1 + ind_1 + 1) * 3,
   ((ind_0 + 1) * dim_1 + ind_1 + 1) * 3,
   ((ind_0 + 1) * dim_1 + ind_1) * 3)

/-- Two-entry dispatch table holding the two triangulation indexers, from
`func_ptr` in the source (`{triangle_vert_ll, triangle_vert_ur}`); the
engines only ever call it with `n ∈ {0, 1}`. -/
def func_ptr (n : ℕ) : ℕ → ℕ → ℕ → ℕ × ℕ × ℕ :=
  if n = 0 then triangle_vert_ll else triangle_vert_ur

/-- Atmospheric refraction estimate, from `atmos_refrac` in the source
(Saemundsson's formula): the true elevation angle is clamped to
`[-1, 90]` degrees, `1.02 / tan(deg2rad(elev + 10.3 / (elev + 5.11)))` is
computed, `0.0019279` is added, the result is scaled by
`(pressure / 101.0) * (283.0 / (273.0 + temp))` and finally multiplied by
`1/60` (arc-minutes to degrees). -/
def atmos_refrac (elev_ang_true temp pressure : ℝ) : ℝ :=
  let lower : ℝ := -1.0
  let upper : ℝ := 90.0
  let elev := max lower (min elev_ang_true upper)
  let refrac_cor := 1.02 / Real.tan (deg2rad (elev + 10.3 / (elev + 5.11)))
  let refrac_cor := refrac_cor + 0.0019279
  let refrac_cor := refrac_cor * ((pressure / 101.0) * (283.0 / (273.0 + temp)))
  refrac_cor * (1.0 / 60.0)

/-- Fetch the vertex stored at byte-triple offset `ind` of a flat vertex
buffer, as the engines do (`vert_grid[ind]`, `vert_grid[ind + 1]`,
`vert_grid[ind + 2]`). -/
def fetchVert (vg : ℕ → ℝ) (ind : ℕ) : Vec3 :=
  ⟨vg ind, vg (ind + 1), vg (ind + 2)⟩

/-- Configuration state of the `CppTerrain` facade after `initialise`: the
fields cached in the class (suffix `_cl` in the source). -/
structure CppTerrain where
  vert_grid_cl : ℕ → ℝ
  dem_dim_0_cl : ℕ
  dem_dim_1_cl : ℕ
  vert_grid_in_cl : ℕ → ℝ
  dem_dim_in_0_cl : ℕ
  dem_dim_in_1_cl : ℕ
  pixel_per_gc_cl : ℕ
  offset_gc_cl : ℕ
  mask_cl : ℕ → ℕ
  dist_search_km : ℝ
  sw_dir_cor_max_cl : ℝ
  ang_max_cl : ℝ

namespace CppTerrain

/-- Hard-coded ray-origin elevation set in `initialise`:
`ray_org_elev_cl = 0.1` metres. -/
def ray_org_elev_cl (_ : CppTerrain) : ℝ := 0.1

/-- Number of grid cells in y, computed in `initialise`:
`(dem_dim_in_0 - 1) / pixel_per_gc` (integer division). -/
def num_gc_y_cl (T : CppTerrain) : ℕ := (T.dem_dim_in_0_cl - 1) / T.pixel_per_gc_cl

/-- Number of grid cells in x, computed in `initialise`:
`(dem_dim_in_1 - 1) / pixel_per_gc` (integer division). -/
def num_gc_x_cl (T : CppTerrain) : ℕ := (T.dem_dim_in_1_cl - 1) / T.pixel_per_gc_cl

/-- Minimal dot product cached in `initialise`:
`dot_prod_min_cl = cos(deg2rad(ang_max))`. -/
def dot_prod_min_cl (T : CppTerrain) : ℝ := Real.cos (deg2rad T.ang_max_cl)

/-- Search distance cached in `initialise`: the caller passes kilometres
and the engine stores `dist_search * 1000.0` metres. -/
def dist_search_cl (T : CppTerrain) : ℝ := T.dist_search_km * 1000.0

/-- Number of triangles per grid cell, `pixel_per_gc² * 2`; the engines
recompute it per call (`num_tri_per_gc`) and divide cell accumulators by
it. -/
def num_tri_per_gc (T : CppTerrain) : ℝ :=
  ((T.pixel_per_gc_cl * T.pixel_per_gc_cl * 2 : ℕ) : ℝ)

end CppTerrain

/-- An occlusion ray as handed to the Embree backend: origin, direction,
`tnear` and `tfar`. -/
structure Ray where
  org : Vec3
  dir : Vec3
  tnear : ℝ
  tfar : ℝ

/-- Modelled from the spec: the Embree occlusion queries (`rtcOccluded1`,
`rtcOccluded1M`, `rtcOccluded8`), which are external to this repository,
set `tfar = -∞` on a hit and leave it untouched on a miss, and all three
expose the same hit/miss convention. The scene is abstracted to an oracle
`occ : Ray → Bool` (`true` = the ray hits an occluder within `tfar`).
`rayUnblocked occ r` is the sign test `tfar > 0.0` that every engine
performs after the query: it fails on a hit (`-∞ > 0` is false) and on a
miss it is `0 < r.tfar` for the submitted `tfar`. -/
def rayUnblocked (occ : Ray → Bool) (r : Ray) : Prop :=
  occ r = false ∧ 0 < r.tfar

instance (occ : Ray → Bool) (r : Ray) : Decidable (rayUnblocked occ r) :=
  inferInstanceAs (Decidable (_ ∧ _))

/-- Per-triangle local state shared by the three engines (the block of
local variables computed in each innermost loop body of `sw_dir_cor`,
`sw_dir_cor_coherent` and `sw_dir_cor_coherent_rp8` before the
self-shadowing tests): tilted-triangle centroid, normal and area, the ray
origin, the horizontal (inner-DEM) triangle's vertices, normal and area,
the surface-enlargement factor, the unit sun vector and the dot product
`n_h · s`. -/
structure TriState where
  cent : Vec3
  norm_tilt : Vec3
  area_tilt : ℝ
  ray_org : Vec3
  hori_v0 : Vec3
  hori_v1 : Vec3
  hori_v2 : Vec3
  norm_hori : Vec3
  area_hori : ℝ
  surf_enl_fac : ℝ
  sun : Vec3
  dot_prod_hs : ℝ

/-- Per-triangle setup computed identically by all three engines for DEM
pixel `(k, m)` and sub-triangle `n`: fetch the tilted triangle from the
outer DEM at the pixel shifted by `pixel_per_gc * offset_gc`, compute its
centroid, normal and area, elevate the ray origin by `ray_org_elev` along
the normal, fetch the horizontal triangle from the inner DEM at `(k, m)`,
compute its normal and area, form the surface-enlargement factor
`area_tilt / area_hori`, the unit sun vector
`normalise(sun_pos - ray_org)` and the dot product `n_h · s`. -/
def triSetup (T : CppTerrain) (sun_pos : Vec3) (k m n : ℕ) : TriState :=
  let idx := func_ptr n T.dem_dim_1_cl
    (k + T.pixel_per_gc_cl * T.offset_gc_cl)
    (m + T.pixel_per_gc_cl * T.offset_gc_cl)
  let v0 := fetchVert T.vert_grid_cl idx.1
  let v1 := fetchVert T.vert_grid_cl idx.2.1
  let v2 := fetchVert T.vert_grid_cl idx.2.2
  let cent := triangle_centroid v0 v1 v2
  let na := triangle_normal_area v0 v1 v2
  let norm_tilt := na.1
  let area_tilt := na.2
  let ray_org : Vec3 :=
    ⟨cent.x + norm_tilt.x * T.ray_org_elev_cl,
     cent.y + norm_tilt.y * T.ray_org_elev_cl,
     cent.z + norm_tilt.z * T.ray_org_elev_cl⟩
  let idxh := func_ptr n T.dem_dim_in_1_cl k m
  let h0 := fetchVert T.vert_grid_in_cl idxh.1
  let h1 := fetchVert T.vert_grid_in_cl idxh.2.1
  let h2 := fetchVert T.vert_grid_in_cl idxh.2.2
  let nah := triangle_normal_area h0 h1 h2
  let norm_hori := nah.1
  let area_hori := nah.2
  let surf_enl_fac := area_tilt / area_hori
  let sun := vec_unit ⟨sun_pos.x - ray_org.x, sun_pos.y - ray_org.y,
    sun_pos.z - ray_org.z⟩
  let dot_prod_hs := norm_hori.x * sun.x + norm_hori.y * sun.y
    + norm_hori.z * sun.z
  { cent := cent, norm_tilt := norm_tilt, area_tilt := area_tilt,
    ray_org := ray_org, hori_v0 := h0, hori_v1 := h1, hori_v2 := h2,
    norm_hori := norm_hori, area_hori := area_hori,
    surf_enl_fac := surf_enl_fac, sun := sun, dot_prod_hs := dot_prod_hs }

/-- Parameters of the reference atmosphere, declared at the top of
`sw_dir_cor`: reference temperature and pressure at sea level, lapse
rate, gravity and the gas constant for dry air. -/
def temperature_ref : ℝ := 283.15

/-- Reference pressure at sea level used by `sw_dir_cor` [kPa]. -/
def pressure_ref : ℝ := 101.0

/-- Temperature lapse rate used by `sw_dir_cor` [K/m]. -/
def lapse_rate : ℝ := 0.0065

/-- Exponent for the barometric formula computed in `sw_dir_cor`:
`g / (R_d * lapse_rate)` with `g = 9.81` and `R_d = 287.0`. -/
def exp_baro : ℝ := 9.81 / (287.0 * 0.0065)

/-- The optional refraction step of the single-ray engine (the body of
`if (refrac_cor == 1)` in `sw_dir_cor`): compute the centroid of the
horizontal (inner-DEM) triangle, the elevation as the distance between
the tilted centroid and that base centroid, the true elevation angle
`90 - rad2deg(acos(n_h · s))`, a reference-atmosphere temperature and
pressure at that elevation, and the refraction angle via `atmos_refrac`;
then rotate the sun vector about the unit axis `s × n_h` by the
refraction angle and recompute `n_h · s`. Only the `sun` and
`dot_prod_hs` fields of the state are updated. -/
def refracStep (st : TriState) : TriState :=
  let cent_base := triangle_centroid st.hori_v0 st.hori_v1 st.hori_v2
  let elevation := Real.sqrt ((st.cent.x - cent_base.x) ^ 2
    + (st.cent.y - cent_base.y) ^ 2 + (st.cent.z - cent_base.z) ^ 2)
  let elev_ang_true := 90.0 - rad2deg (Real.arccos st.dot_prod_hs)
  let temperature := temperature_ref - lapse_rate * elevation
  let pressure := pressure_ref * Real.rpow (temperature / temperature_ref) exp_baro
  let refrac_cor := atmos_refrac elev_ang_true (K2degC temperature) pressure
  let axis := vec_unit (cross_prod st.sun st.norm_hori)
  let sun := vec_rot axis (deg2rad refrac_cor) st.sun
  let dot_prod_hs := st.norm_hori.x * sun.x + st.norm_hori.y * sun.y
    + st.norm_hori.z * sun.z
  { st with sun := sun, dot_prod_hs := dot_prod_hs }

/-- Per-triangle state of the single-ray engine after the optional
refraction correction (`refrac_cor = 1` applies `refracStep`, any other
value leaves the state unchanged). -/
def triStateFinal (T : CppTerrain) (sun_pos : Vec3) (refrac_cor : ℤ)
    (k m n : ℕ) : TriState :=
  if refrac_cor = 1 then refracStep (triSetup T sun_pos k m n)
  else triSetup T sun_pos k m n

/-- The occlusion ray built from a per-triangle state: origin at the
elevated centroid, direction along the (possibly refracted) unit sun
vector, `tnear = 0.0` and `tfar = dist_search_cl`. -/
def triRay (T : CppTerrain) (st : TriState) : Ray :=
  ⟨st.ray_org, st.sun, 0.0, T.dist_search_cl⟩

/-- Dot product `n_t · s` between the tilted normal and the sun vector of
a per-triangle state (`dot_prod_ts` in the source). -/
def dot_prod_ts (st : TriState) : ℝ :=
  st.norm_tilt.x * st.sun.x + st.norm_tilt.y * st.sun.y
    + st.norm_tilt.z * st.sun.z

/-- An element of the `float` output array: either IEEE NaN (written to
masked cells) or an ordinary value, modelled as a real number. -/
inductive FVal where
  | nan : FVal
  | val : ℝ → FVal

/-- Add a real contribution to a buffer element, as
`sw_dir_cor[i] = sw_dir_cor[i] + contribution` does: NaN absorbs the
addition, an ordinary value accumulates. -/
def FVal.addR : FVal → ℝ → FVal
  | FVal.nan, _ => FVal.nan
  | FVal.val x, y => FVal.val (x + y)

/-- Divide a buffer element by a real number, as `sw_dir_cor[i] /= n`
does: NaN stays NaN. -/
def FVal.divR : FVal → ℝ → FVal
  | FVal.nan, _ => FVal.nan
  | FVal.val x, y => FVal.val (x / y)

/-- Per-triangle contribution of the single-ray engine `sw_dir_cor` for
DEM pixel `(k, m)`, sub-triangle `n`: after the optional refraction step,
a triangle failing the Earth self-shadow test
(`dot_prod_hs <= dot_prod_min_cl`) or the tilted self-shadow test
(`dot_prod_ts <= 0.0`) contributes nothing; otherwise one occlusion ray
is traced and, if its `tfar` stays positive, the clipped factor
`min((dot_prod_ts / dot_prod_hs) * surf_enl_fac, sw_dir_cor_max)` is
added. -/
def sw_dir_cor_tri (T : CppTerrain) (occ : Ray → Bool) (sun_pos : Vec3)
    (refrac_cor : ℤ) (k m n : ℕ) : ℝ :=
  let st := triStateFinal T sun_pos refrac_cor k m n
  if st.dot_prod_hs ≤ T.dot_prod_min_cl then 0
  else if dot_prod_ts st ≤ 0 then 0
  else if rayUnblocked occ (triRay T st) then
    min (dot_prod_ts st / st.dot_prod_hs * st.surf_enl_fac)
      T.sw_dir_cor_max_cl
  else 0

/-- Number of occlusion rays the single-ray engine issues for one
triangle (`num_rays += 1` runs exactly when both self-shadow tests
pass). -/
def sw_dir_cor_tri_rays (T : CppTerrain) (sun_pos : Vec3) (refrac_cor : ℤ)
    (k m n : ℕ) : ℕ :=
  let st := triStateFinal T sun_pos refrac_cor k m n
  if st.dot_prod_hs ≤ T.dot_prod_min_cl then 0
  else if dot_prod_ts st ≤ 0 then 0
  else 1

/-- Contributions of all `pixel_per_gc² * 2` triangles of grid cell
`(i, j)` in the iteration order of `sw_dir_cor`: pixel rows
`k = i * pixel_per_gc, ...`, pixel columns `m = j * pixel_per_gc, ...`,
and the two sub-triangles `n = 0, 1` of each pixel. -/
def cellContribList (T : CppTerrain) (occ : Ray → Bool) (sun_pos : Vec3)
    (refrac_cor : ℤ) (i j : ℕ) : List ℝ :=
  (List.range T.pixel_per_gc_cl).flatMap fun a =>
    (List.range T.pixel_per_gc_cl).flatMap fun b =>
      [sw_dir_cor_tri T occ sun_pos refrac_cor
        (i * T.pixel_per_gc_cl + a) (j * T.pixel_per_gc_cl + b) 0,
       sw_dir_cor_tri T occ sun_pos refrac_cor
        (i * T.pixel_per_gc_cl + a) (j * T.pixel_per_gc_cl + b) 1]

/-- Output array of the single-ray engine `CppTerrain::sw_dir_cor`,
as a function of the caller-supplied buffer `buf`: for a processed
(`mask = 1`) cell the engine accumulates each triangle's contribution
into the buffer element (`sw_dir_cor[c] = sw_dir_cor[c] + ...`) without
ever zero-initialising it, a masked cell is assigned NaN, and a final
loop divides every element of the `num_gc_y * num_gc_x` array by
`pixel_per_gc² * 2`. Elements beyond the array are never touched. -/
def CppTerrain.sw_dir_cor (T : CppTerrain) (occ : Ray → Bool)
    (sun_pos : Vec3) (buf : ℕ → FVal) (refrac_cor : ℤ) : ℕ → FVal :=
  fun c =>
    if c < T.num_gc_y_cl * T.num_gc_x_cl then
      let i := c / T.num_gc_x_cl
      let j := c % T.num_gc_x_cl
      (if T.mask_cl (lin_ind_2d T.num_gc_x_cl i j) = 1 then
        (cellContribList T occ sun_pos refrac_cor i j).foldl FVal.addR
          (buf (lin_ind_2d T.num_gc_x_cl i j))
      else FVal.nan).divR T.num_tri_per_gc
    else buf c

/-- Rays and pre-computed contributions enqueued for one triangle by the
coherent-batch and packet-8 engines: nothing is appended when either
self-shadow test fails; otherwise the ray (with `tnear = 0`,
`tfar = dist_search_cl`) is appended together with the clipped
contribution. -/
def triPairs (T : CppTerrain) (sun_pos : Vec3) (k m n : ℕ) :
    List (Ray × ℝ) :=
  let st := triSetup T sun_pos k m n
  if st.dot_prod_hs ≤ T.dot_prod_min_cl then []
  else if dot_prod_ts st ≤ 0 then []
  else [(triRay T st,
    min (dot_prod_ts st / st.dot_prod_hs * st.surf_enl_fac)
      T.sw_dir_cor_max_cl)]

/-- The ray/contribution buffer filled by `sw_dir_cor_coherent` for grid
cell `(i, j)` (the arrays `rays` and `sw_dir_cor_ray`), in its iteration
order. -/
def cellPairList (T : CppTerrain) (sun_pos : Vec3) (i j : ℕ) :
    List (Ray × ℝ) :=
  (List.range T.pixel_per_gc_cl).flatMap fun a =>
    (List.range T.pixel_per_gc_cl).flatMap fun b =>
      ([0, 1] : List ℕ).flatMap fun n =>
        triPairs T sun_pos (i * T.pixel_per_gc_cl + a)
          (j * T.pixel_per_gc_cl + b) n

/-- Aggregation performed after a batched occlusion query: the
contributions of the rays whose `tfar` stayed positive are summed
(`sw_dir_cor_agg`). -/
def occAgg (occ : Ray → Bool) (prs : List (Ray × ℝ)) : ℝ :=
  ((prs.filter fun pr => decide (rayUnblocked occ pr.1)).map Prod.snd).sum

/-- Output array of the coherent-batch engine
`CppTerrain::sw_dir_cor_coherent`: a processed cell is assigned
(`sw_dir_cor[c] = ...`) the sum of the unoccluded enqueued contributions
divided by `pixel_per_gc² * 2`; a masked cell is assigned NaN; elements
beyond the array are never touched. The caller-supplied buffer content is
never read. -/
def CppTerrain.sw_dir_cor_coherent (T : CppTerrain) (occ : Ray → Bool)
    (sun_pos : Vec3) (buf : ℕ → FVal) : ℕ → FVal :=
  fun c =>
    if c < T.num_gc_y_cl * T.num_gc_x_cl then
      let i := c / T.num_gc_x_cl
      let j := c % T.num_gc_x_cl
      if T.mask_cl (lin_ind_2d T.num_gc_x_cl i j) = 1 then
        FVal.val (occAgg occ (cellPairList T sun_pos i j)
          / T.num_tri_per_gc)
      else FVal.nan
    else buf c

/-- The (up to eight) rays and contributions one 2x2 pixel block
starting at pixel `(k, m)` enqueues into the `RTCRay8` packet of
`sw_dir_cor_coherent_rp8`, in its iteration order (`k_block`, `m_block`,
`n`); lanes whose triangle fails a self-shadow test stay invalid. -/
def blockPairList (T : CppTerrain) (sun_pos : Vec3) (k m : ℕ) :
    List (Ray × ℝ) :=
  ([0, 1] : List ℕ).flatMap fun dk =>
    ([0, 1] : List ℕ).flatMap fun dm =>
      ([0, 1] : List ℕ).flatMap fun n =>
        triPairs T sun_pos (k + dk) (m + dm) n

/-- Cell accumulator of the packet-8 engine: the pixels of cell `(i, j)`
are traversed in 2x2 blocks (`k` and `m` advance by 2), each block's
packet is traced, and the contributions of lanes whose `tfar` stayed
positive are summed into `sw_dir_cor_agg`. -/
def rp8Agg (T : CppTerrain) (occ : Ray → Bool) (sun_pos : Vec3)
    (i j : ℕ) : ℝ :=
  ((List.range (T.pixel_per_gc_cl / 2)).map fun a =>
    ((List.range (T.pixel_per_gc_cl / 2)).map fun b =>
      occAgg occ (blockPairList T sun_pos
        (i * T.pixel_per_gc_cl + 2 * a)
        (j * T.pixel_per_gc_cl + 2 * b))).sum).sum

/-- Output array of the packet-8 engine
`CppTerrain::sw_dir_cor_coherent_rp8`: if `pixel_per_gc` is odd
(`pixel_per_gc_cl % 2` is nonzero) the method prints an error and returns
before writing anything, so the caller's buffer is returned unchanged;
otherwise a processed cell is assigned its block-summed accumulator
divided by `pixel_per_gc² * 2` and a masked cell is assigned NaN. -/
def CppTerrain.sw_dir_cor_coherent_rp8 (T : CppTerrain) (occ : Ray → Bool)
    (sun_pos : Vec3) (buf : ℕ → FVal) : ℕ → FVal :=
  if T.pixel_per_gc_cl % 2 ≠ 0 then buf
  else fun c =>
    if c < T.num_gc_y_cl * T.num_gc_x_cl then
      let i := c / T.num_gc_x_cl
      let j := c % T.num_gc_x_cl
      if T.mask_cl (lin_ind_2d T.num_gc_x_cl i j) = 1 then
        FVal.val (rp8Agg T occ sun_pos i j / T.num_tri_per_gc)
      else FVal.nan
    else buf c

/-- Occlusion oracle of an empty test scene: no ray ever hits. -/
def occNone : Ray → Bool := fun _ => false

/-- Smallest concrete configuration: 2x2 outer and inner DEMs of zeros,
`pixel_per_gc = 1`, `offset_gc = 0`, a single aggregation cell, all
cells processed, `dist_search = 1` km, `sw_dir_cor_max = 5`,
`ang_max = 90` degrees. -/
def T0 : CppTerrain :=
  { vert_grid_cl := fun _ => 0, dem_dim_0_cl := 2, dem_dim_1_cl := 2,
    vert_grid_in_cl := fun _ => 0, dem_dim_in_0_cl := 2,
    dem_dim_in_1_cl := 2, pixel_per_gc_cl := 1, offset_gc_cl := 0,
    mask_cl := fun _ => 1, dist_search_km := 1, sw_dir_cor_max_cl := 5,
    ang_max_cl := 90 }

/-- The configuration `T0` with an odd `pixel_per_gc` of 3. -/
def T0odd : CppTerrain := { T0 with pixel_per_gc_cl := 3 }

/-- A sun position at the ENU origin. -/
def sun0 : Vec3 := ⟨0, 0, 0⟩

/-- A caller-supplied output buffer whose elements are not
zero-initialised (every element holds -8). -/
def bufNeg : ℕ → FVal := fun _ => FVal.val (-8)

/-- A zero-initialised caller-supplied output buffer. -/
def bufZero : ℕ → FVal := fun _ => FVal.val 0

/-- A constant caller-supplied buffer holding 7 everywhere (used to
observe that a call leaves the buffer untouched). -/
def bufSeven : ℕ → FVal := fun _ => FVal.val 7

/-- Flat vertex buffer of a 2x2 flat DEM with unit spacing: grid vertex
`(i, j)` holds `(j, i, 0)` at float offset `(i * 2 + j) * 3`. -/
def wgrid : ℕ → ℝ := fun t =>
  if t = 3 then 1 else if t = 7 then 1 else if t = 9 then 1
  else if t = 10 then 1 else 0

/-- Non-degenerate concrete configuration: outer and inner DEM are the
flat 2x2 unit-spacing grid `wgrid` (every triangle has area 1/2 and
exact normal (0, 0, 1)), `pixel_per_gc = 1`, `offset_gc = 0`, a single
processed aggregation cell, `dist_search = 1` km, `sw_dir_cor_max = 5`,
`ang_max = 90` degrees. -/
def T1 : CppTerrain :=
  { vert_grid_cl := wgrid, dem_dim_0_cl := 2, dem_dim_1_cl := 2,
    vert_grid_in_cl := wgrid, dem_dim_in_0_cl := 2,
    dem_dim_in_1_cl := 2, pixel_per_gc_cl := 1, offset_gc_cl := 0,
    mask_cl := fun _ => 1, dist_search_km := 1, sw_dir_cor_max_cl := 5,
    ang_max_cl := 90 }

/-- A sun position below the horizon of the flat grid of `T1`: every
triangle is culled by the Earth self-shadow test (`n_h . s < 0`), in the
source code and in the embedding alike. -/
def sun1 : Vec3 := ⟨0, 0, -1⟩

/-- Flat vertex buffer of a 3x3 flat DEM with unit spacing: grid vertex
`(i, j)` holds `(j, i, 0)` at float offset `(i * 3 + j) * 3`. -/
def wgrid3 : ℕ → ℝ := fun t =>
  if t % 3 = 0 then ((t / 3 % 3 : ℕ) : ℝ)
  else if t % 3 = 1 then ((t / 3 / 3 : ℕ) : ℝ)
  else 0

/-- The flat-grid configuration with 3x3 DEMs and an even `pixel_per_gc`
of 2 (one aggregation cell of four pixels). -/
def T1even : CppTerrain :=
  { T1 with
    vert_grid_cl := wgrid3
    vert_grid_in_cl := wgrid3
    dem_dim_0_cl := 3
    dem_dim_1_cl := 3
    dem_dim_in_0_cl := 3
    dem_dim_in_1_cl := 3
    pixel_per_gc_cl := 2 }

/-! Helper lemmas about the embedded definitions. -/

lemma foldl_addR_val (l : List ℝ) :
    ∀ b : ℝ, l.foldl FVal.addR (FVal.val b) = FVal.val (b + l.sum) := by
  induction l with
  | nil => intro b; simp [FVal.addR]
  | cons x xs ih =>
      intro b
      simp only [List.foldl_cons, FVal.addR, ih, List.sum_cons]
      rw [add_assoc]

lemma foldl_addR_nan (l : List ℝ) :
    l.foldl FVal.addR FVal.nan = FVal.nan := by
  induction l with
  | nil => rfl
  | cons x xs ih => simpa [FVal.addR] using ih

lemma lin_ind_2d_lt {ngy ngx i j : ℕ} (hi : i < ngy) (hj : j < ngx) :
    lin_ind_2d ngx i j < ngy * ngx := by
  unfold lin_ind_2d
  calc i * ngx + j < i * ngx + ngx := by omega
    _ = (i + 1) * ngx := by ring
    _ ≤ ngy * ngx := Nat.mul_le_mul_right _ hi

lemma lin_ind_2d_div {ngx i j : ℕ} (hj : j < ngx) :
    lin_ind_2d ngx i j / ngx = i := by
  unfold lin_ind_2d
  rw [mul_comm, Nat.mul_add_div (lt_of_le_of_lt (Nat.zero_le j) hj),
    Nat.div_eq_of_lt hj, add_zero]

lemma lin_ind_2d_mod {ngx i j : ℕ} (hj : j < ngx) :
    lin_ind_2d ngx i j % ngx = j := by
  unfold lin_ind_2d
  rw [add_comm, Nat.add_mul_mod_self_right, Nat.mod_eq_of_lt hj]

lemma sw_dir_cor_apply (T : CppTerrain) (occ : Ray → Bool) (sun_pos : Vec3)
    (buf : ℕ → FVal) (refrac_cor : ℤ) {i j : ℕ}
    (hi : i < T.num_gc_y_cl) (hj : j < T.num_gc_x_cl) :
    T.sw_dir_cor occ sun_pos buf refrac_cor (lin_ind_2d T.num_gc_x_cl i j) =
      (if T.mask_cl (lin_ind_2d T.num_gc_x_cl i j) = 1 then
        (cellContribList T occ sun_pos refrac_cor i j).foldl FVal.addR
          (buf (lin_ind_2d T.num_gc_x_cl i j))
      else FVal.nan).divR T.num_tri_per_gc := by
  unfold CppTerrain.sw_dir_cor
  rw [if_pos (lin_ind_2d_lt hi hj)]
  rw [lin_ind_2d_div hj, lin_ind_2d_mod hj]

lemma sw_dir_cor_coherent_apply (T : CppTerrain) (occ : Ray → Bool)
    (sun_pos : Vec3) (buf : ℕ → FVal) {i j : ℕ}
    (hi : i < T.num_gc_y_cl) (hj : j < T.num_gc_x_cl) :
    T.sw_dir_cor_coherent occ sun_pos buf (lin_ind_2d T.num_gc_x_cl i j) =
      (if T.mask_cl (lin_ind_2d T.num_gc_x_cl i j) = 1 then
        FVal.val (occAgg occ (cellPairList T sun_pos i j)
          / T.num_tri_per_gc)
      else FVal.nan) := by
  unfold CppTerrain.sw_dir_cor_coherent
  rw [if_pos (lin_ind_2d_lt hi hj)]
  rw [lin_ind_2d_div hj, lin_ind_2d_mod hj]

lemma sw_dir_cor_rp8_apply (T : CppTerrain) (occ : Ray → Bool)
    (sun_pos : Vec3) (buf : ℕ → FVal) {i j : ℕ}
    (heven : T.pixel_per_gc_cl % 2 = 0)
    (hi : i < T.num_gc_y_cl) (hj : j < T.num_gc_x_cl) :
    T.sw_dir_cor_coherent_rp8 occ sun_pos buf (lin_ind_2d T.num_gc_x_cl i j) =
      (if T.mask_cl (lin_ind_2d T.num_gc_x_cl i j) = 1 then
        FVal.val (rp8Agg T occ sun_pos i j / T.num_tri_per_gc)
      else FVal.nan) := by
  unfold CppTerrain.sw_dir_cor_coherent_rp8
  rw [if_neg (by simp [heven])]
  rw [if_pos (lin_ind_2d_lt hi hj)]
  rw [lin_ind_2d_div hj, lin_ind_2d_mod hj]

lemma occAgg_nil (occ : Ray → Bool) : occAgg occ [] = 0 := rfl

lemma occAgg_append (occ : Ray → Bool) (l1 l2 : List (Ray × ℝ)) :
    occAgg occ (l1 ++ l2) = occAgg occ l1 + occAgg occ l2 := by
  simp [occAgg, List.filter_append]

lemma occAgg_flatMap {α : Type} (occ : Ray → Bool) (l : List α)
    (f : α → List (Ray × ℝ)) :
    occAgg occ (l.flatMap f) = (l.map fun x => occAgg occ (f x)).sum := by
  induction l with
  | nil => rfl
  | cons x xs ih => simp [List.flatMap_cons, occAgg_append, ih]

lemma sum_flatMap {α : Type} (l : List α) (f : α → List ℝ) :
    (l.flatMap f).sum = (l.map fun x => (f x).sum).sum := by
  induction l with
  | nil => rfl
  | cons x xs ih => simp [List.flatMap_cons, ih]

lemma sum_map_add {α : Type} (l : List α) (f g : α → ℝ) :
    (l.map fun x => f x + g x).sum = (l.map f).sum + (l.map g).sum := by
  induction l with
  | nil => simp
  | cons x xs ih =>
      simp only [List.map_cons, List.sum_cons, ih]
      ring

lemma triStateFinal_zero (T : CppTerrain) (sun_pos : Vec3) (k m n : ℕ) :
    triStateFinal T sun_pos 0 k m n = triSetup T sun_pos k m n := by
  unfold triStateFinal
  rw [if_neg (by decide)]

lemma occAgg_triPairs (T : CppTerrain) (occ : Ray → Bool) (sun_pos : Vec3)
    (k m n : ℕ) :
    occAgg occ (triPairs T sun_pos k m n)
      = sw_dir_cor_tri T occ sun_pos 0 k m n := by
  unfold triPairs sw_dir_cor_tri
  rw [triStateFinal_zero]
  by_cases h1 :
      (triSetup T sun_pos k m n).dot_prod_hs ≤ T.dot_prod_min_cl
  · simp [h1, occAgg]
  · by_cases h2 : dot_prod_ts (triSetup T sun_pos k m n) ≤ 0
    · simp [h1, h2, occAgg]
    · by_cases h3 : rayUnblocked occ (triRay T (triSetup T sun_pos k m n))
      · simp [h1, h2, h3, occAgg, List.filter]
      · simp [h1, h2, h3, occAgg, List.filter]

lemma occAgg_cellPairList (T : CppTerrain) (occ : Ray → Bool)
    (sun_pos : Vec3) (i j : ℕ) :
    occAgg occ (cellPairList T sun_pos i j)
      = (cellContribList T occ sun_pos 0 i j).sum := by
  unfold cellPairList cellContribList
  rw [occAgg_flatMap, sum_flatMap]
  refine congrArg List.sum (List.map_congr_left fun a _ => ?_)
  rw [occAgg_flatMap, sum_flatMap]
  refine congrArg List.sum (List.map_congr_left fun b _ => ?_)
  simp [List.flatMap_cons, occAgg_append, occAgg_triPairs, occAgg_nil]

lemma range_pair_sum (h : ℕ) (f : ℕ → ℝ) :
    ((List.range (2 * h)).map f).sum
      = ((List.range h).map fun b => f (2 * b) + f (2 * b + 1)).sum := by
  induction h with
  | zero => rfl
  | succ n ih =>
      have e1 : 2 * (n + 1) = (2 * n + 1) + 1 := by ring
      have e2 : List.range ((2 * n + 1) + 1)
          = List.range (2 * n + 1) ++ [2 * n + 1] := List.range_succ (2 * n + 1)
      have e3 : List.range (2 * n + 1) = List.range (2 * n) ++ [2 * n] :=
        List.range_succ (2 * n)
      have e4 : List.range (n + 1) = List.range n ++ [n] := List.range_succ n
      rw [e1, e2, e3, e4]
      simp only [List.map_append, List.sum_append, ih, List.map_cons,
        List.map_nil, List.sum_cons, List.sum_nil]
      ring

lemma occAgg_blockPairList (T : CppTerrain) (occ : Ray → Bool)
    (sun_pos : Vec3) (k m : ℕ) :
    occAgg occ (blockPairList T sun_pos k m)
      = ((sw_dir_cor_tri T occ sun_pos 0 k m 0
          + sw_dir_cor_tri T occ sun_pos 0 k m 1)
         + (sw_dir_cor_tri T occ sun_pos 0 k (m + 1) 0
          + sw_dir_cor_tri T occ sun_pos 0 k (m + 1) 1))
        + ((sw_dir_cor_tri T occ sun_pos 0 (k + 1) m 0
          + sw_dir_cor_tri T occ sun_pos 0 (k + 1) m 1)
         + (sw_dir_cor_tri T occ sun_pos 0 (k + 1) (m + 1) 0
          + sw_dir_cor_tri T occ sun_pos 0 (k + 1) (m + 1) 1)) := by
  unfold blockPairList
  simp only [List.flatMap_cons, List.flatMap_nil, List.append_nil,
    occAgg_append, occAgg_triPairs, occAgg_nil, Nat.add_zero]

lemma rp8Agg_eq (T : CppTerrain) (occ : Ray → Bool) (sun_pos : Vec3)
    (i j : ℕ) (heven : T.pixel_per_gc_cl % 2 = 0) :
    rp8Agg T occ sun_pos i j = (cellContribList T occ sun_pos 0 i j).sum := by
  obtain ⟨h, hh⟩ : ∃ h, T.pixel_per_gc_cl = 2 * h :=
    ⟨T.pixel_per_gc_cl / 2, by omega⟩
  unfold rp8Agg cellContribList
  rw [hh]
  have hdiv : 2 * h / 2 = h := by omega
  rw [hdiv]
  simp only [sum_flatMap]
  rw [range_pair_sum]
  refine congrArg List.sum (List.map_congr_left fun a _ => ?_)
  rw [range_pair_sum, range_pair_sum, ← sum_map_add]
  refine congrArg List.sum (List.map_congr_left fun b _ => ?_)
  rw [occAgg_blockPairList]
  simp only [List.sum_cons, List.sum_nil, add_zero, Nat.add_assoc]

lemma area_nonneg (v0 v1 v2 : Vec3) : 0 ≤ (triangle_normal_area v0 v1 v2).2 :=
  div_nonneg (Real.sqrt_nonneg _) (by norm_num)

lemma triSetup_surf_nonneg (T : CppTerrain) (sun_pos : Vec3) (k m n : ℕ) :
    0 ≤ (triSetup T sun_pos k m n).surf_enl_fac :=
  div_nonneg (area_nonneg _ _ _) (area_nonneg _ _ _)

lemma refracStep_norm_hori (st : TriState) :
    (refracStep st).norm_hori = st.norm_hori := rfl

lemma refracStep_norm_tilt (st : TriState) :
    (refracStep st).norm_tilt = st.norm_tilt := rfl

lemma refracStep_area_tilt (st : TriState) :
    (refracStep st).area_tilt = st.area_tilt := rfl

lemma refracStep_area_hori (st : TriState) :
    (refracStep st).area_hori = st.area_hori := rfl

lemma refracStep_surf (st : TriState) :
    (refracStep st).surf_enl_fac = st.surf_enl_fac := rfl

lemma refracStep_ray_org (st : TriState) :
    (refracStep st).ray_org = st.ray_org := rfl

lemma refracStep_cent (st : TriState) :
    (refracStep st).cent = st.cent := rfl

lemma triStateFinal_surf (T : CppTerrain) (sun_pos : Vec3) (refrac_cor : ℤ)
    (k m n : ℕ) :
    (triStateFinal T sun_pos refrac_cor k m n).surf_enl_fac
      = (triSetup T sun_pos k m n).surf_enl_fac := by
  unfold triStateFinal
  split_ifs <;> rfl

lemma tri_contrib_bounds (T : CppTerrain) (occ : Ray → Bool)
    (sun_pos : Vec3) (refrac_cor : ℤ) (k m n : ℕ)
    (hmin : 0 ≤ T.dot_prod_min_cl) (hmax : 0 ≤ T.sw_dir_cor_max_cl) :
    0 ≤ sw_dir_cor_tri T occ sun_pos refrac_cor k m n ∧
      sw_dir_cor_tri T occ sun_pos refrac_cor k m n
        ≤ T.sw_dir_cor_max_cl := by
  simp only [sw_dir_cor_tri]
  split_ifs with h1 h2 h3
  · exact ⟨le_refl 0, hmax⟩
  · exact ⟨le_refl 0, hmax⟩
  · constructor
    · refine le_min ?_ hmax
      push_neg at h1 h2
      have hdhs : 0 < (triStateFinal T sun_pos refrac_cor k m n).dot_prod_hs :=
        lt_of_le_of_lt hmin h1
      refine mul_nonneg (div_nonneg (le_of_lt h2) (le_of_lt hdhs)) ?_
      rw [triStateFinal_surf]
      exact triSetup_surf_nonneg T sun_pos k m n
    · exact min_le_right _ _
  · exact ⟨le_refl 0, hmax⟩

lemma length_flatMap_const {α β : Type} (l : List α) (f : α → List β)
    (c : ℕ) (hf : ∀ a, (f a).length = c) :
    (l.flatMap f).length = l.length * c := by
  induction l with
  | nil => simp
  | cons x xs ih =>
      simp only [List.flatMap_cons, List.length_append, ih, hf,
        List.length_cons]
      ring

lemma cellContribList_length (T : CppTerrain) (occ : Ray → Bool)
    (sun_pos : Vec3) (refrac_cor : ℤ) (i j : ℕ) :
    (cellContribList T occ sun_pos refrac_cor i j).length
      = T.pixel_per_gc_cl * T.pixel_per_gc_cl * 2 := by
  unfold cellContribList
  simp only [List.length_flatMap, Function.comp_def, List.length_cons,
    List.length_nil, List.map_const', List.sum_replicate, List.length_map,
    List.length_range, smul_eq_mul]
  ring

lemma cellContribList_mem (T : CppTerrain) (occ : Ray → Bool)
    (sun_pos : Vec3) (refrac_cor : ℤ) (i j : ℕ) {x : ℝ}
    (hx : x ∈ cellContribList T occ sun_pos refrac_cor i j) :
    ∃ k m n, x = sw_dir_cor_tri T occ sun_pos refrac_cor k m n := by
  unfold cellContribList at hx
  simp only [List.mem_flatMap, List.mem_range, List.mem_cons,
    List.not_mem_nil, or_false] at hx
  obtain ⟨a, _, b, _, hx | hx⟩ := hx
  · exact ⟨_, _, 0, hx⟩
  · exact ⟨_, _, 1, hx⟩

lemma cellSum_bounds (T : CppTerrain) (occ : Ray → Bool) (sun_pos : Vec3)
    (refrac_cor : ℤ) (i j : ℕ)
    (hmin : 0 ≤ T.dot_prod_min_cl) (hmax : 0 ≤ T.sw_dir_cor_max_cl) :
    0 ≤ (cellContribList T occ sun_pos refrac_cor i j).sum ∧
      (cellContribList T occ sun_pos refrac_cor i j).sum
        ≤ T.num_tri_per_gc * T.sw_dir_cor_max_cl := by
  constructor
  · refine List.sum_nonneg fun x hx => ?_
    obtain ⟨k, m, n, rfl⟩ := cellContribList_mem T occ sun_pos refrac_cor i j hx
    exact (tri_contrib_bounds T occ sun_pos refrac_cor k m n hmin hmax).1
  · have hb := List.sum_le_card_nsmul
      (cellContribList T occ sun_pos refrac_cor i j) T.sw_dir_cor_max_cl
      (fun x hx => by
        obtain ⟨k, m, n, rfl⟩ :=
          cellContribList_mem T occ sun_pos refrac_cor i j hx
        exact (tri_contrib_bounds T occ sun_pos refrac_cor k m n hmin hmax).2)
    rw [cellContribList_length, nsmul_eq_mul] at hb
    unfold CppTerrain.num_tri_per_gc
    exact_mod_cast hb

lemma num_tri_per_gc_pos (T : CppTerrain) (hp : 0 < T.pixel_per_gc_cl) :
    0 < T.num_tri_per_gc := by
  unfold CppTerrain.num_tri_per_gc
  have : 0 < T.pixel_per_gc_cl * T.pixel_per_gc_cl * 2 :=
    Nat.mul_pos (Nat.mul_pos hp hp) (by norm_num)
  exact_mod_cast this

lemma dot_prod_min_nonneg (T : CppTerrain) (h1 : 0 < T.ang_max_cl)
    (h2 : T.ang_max_cl ≤ 90) : 0 ≤ T.dot_prod_min_cl := by
  unfold CppTerrain.dot_prod_min_cl deg2rad
  have hpi := Real.pi_pos
  refine Real.cos_nonneg_of_mem_Icc ⟨?_, ?_⟩
  · nlinarith
  · nlinarith

lemma dot_prod_min_ninety (T : CppTerrain) (h : T.ang_max_cl = 90) :
    T.dot_prod_min_cl = 0 := by
  unfold CppTerrain.dot_prod_min_cl
  rw [h, show deg2rad 90 = π / 2 by unfold deg2rad; ring]
  exact Real.cos_pi_div_two

lemma triSetup_T1_cull_ll : (triSetup T1 sun1 0 0 0).dot_prod_hs ≤ 0 := by
  have hll : triangle_vert_ll 2 0 0 = (0, 3, 6) := rfl
  have hf0 : func_ptr 0 = triangle_vert_ll := rfl
  simp only [triSetup, T1, sun1, hf0, mul_zero, add_zero, hll, fetchVert,
    wgrid, triangle_centroid, triangle_normal_area, vec_unit,
    CppTerrain.ray_org_elev_cl]
  norm_num [Real.sqrt_one]
  exact div_nonpos_of_nonpos_of_nonneg (by norm_num) (by positivity)

lemma triSetup_T1_cull_ur : (triSetup T1 sun1 0 0 1).dot_prod_hs ≤ 0 := by
  have hur : triangle_vert_ur 2 0 0 = (3, 9, 6) := rfl
  have hf1 : func_ptr 1 = triangle_vert_ur := rfl
  simp only [triSetup, T1, sun1, hf1, mul_zero, add_zero, hur, fetchVert,
    wgrid, triangle_centroid, triangle_normal_area, vec_unit,
    CppTerrain.ray_org_elev_cl]
  norm_num [Real.sqrt_one]
  exact div_nonpos_of_nonpos_of_nonneg (by norm_num) (by positivity)

lemma tri_T1_zero_ll (occ : Ray → Bool) :
    sw_dir_cor_tri T1 occ sun1 0 0 0 0 = 0 := by
  have hc : (triSetup T1 sun1 0 0 0).dot_prod_hs ≤ T1.dot_prod_min_cl := by
    rw [dot_prod_min_ninety T1 rfl]
    exact triSetup_T1_cull_ll
  simp only [sw_dir_cor_tri, triStateFinal_zero, if_pos hc]

lemma tri_T1_zero_ur (occ : Ray → Bool) :
    sw_dir_cor_tri T1 occ sun1 0 0 0 1 = 0 := by
  have hc : (triSetup T1 sun1 0 0 1).dot_prod_hs ≤ T1.dot_prod_min_cl := by
    rw [dot_prod_min_ninety T1 rfl]
    exact triSetup_T1_cull_ur
  simp only [sw_dir_cor_tri, triStateFinal_zero, if_pos hc]

lemma cellContribList_T1 (occ : Ray → Bool) :
    cellContribList T1 occ sun1 0 0 0 = [0, 0] := by
  unfold cellContribList
  simp [show T1.pixel_per_gc_cl = 1 from rfl, tri_T1_zero_ll,
    tri_T1_zero_ur, show List.range 1 = [0] from by decide,
    List.flatMap_cons, List.flatMap_nil]

lemma single_T1 (occ : Ray → Bool) :
    T1.sw_dir_cor occ sun1 bufNeg 0 0 = FVal.val (-4) := by
  have happ := sw_dir_cor_apply T1 occ sun1 bufNeg 0 (i := 0) (j := 0)
    (by decide) (by decide)
  simp only [show lin_ind_2d T1.num_gc_x_cl 0 0 = 0 from rfl] at happ
  rw [happ, if_pos (show T1.mask_cl 0 = 1 from rfl), cellContribList_T1,
    show bufNeg 0 = FVal.val (-8) from rfl, foldl_addR_val]
  simp [FVal.divR, CppTerrain.num_tri_per_gc,
    show T1.pixel_per_gc_cl = 1 from rfl, bufNeg]
  norm_num

lemma coherent_T1 (occ : Ray → Bool) (buf : ℕ → FVal) :
    T1.sw_dir_cor_coherent occ sun1 buf 0 = FVal.val 0 := by
  have happ := sw_dir_cor_coherent_apply T1 occ sun1 buf (i := 0) (j := 0)
    (by decide) (by decide)
  simp only [show lin_ind_2d T1.num_gc_x_cl 0 0 = 0 from rfl] at happ
  rw [happ, if_pos (show T1.mask_cl 0 = 1 from rfl), occAgg_cellPairList,
    cellContribList_T1]
  norm_num

lemma tan_pi_div_two_add (x : ℝ) :
    Real.tan (π / 2 + x) = -(Real.tan x)⁻¹ := by
  have h1 : π / 2 + x = (x - π / 2) + π := by ring
  rw [h1, Real.tan_periodic (x - π / 2),
    show x - π / 2 = -(π / 2 - x) by ring, Real.tan_neg,
    Real.tan_pi_div_two_sub]

lemma atmos_refrac_ninety_eq (temp pressure : ℝ) :
    atmos_refrac 90 temp pressure =
      ((0.0019279 - 1.02 * Real.tan (deg2rad (10.3 / 95.11)))
        * ((pressure / 101.0) * (283.0 / (273.0 + temp)))) * (1.0 / 60.0) := by
  simp only [atmos_refrac]
  have hclamp : max (-1.0 : ℝ) (min (90 : ℝ) 90.0) = 90 := by
    rw [min_eq_left (by norm_num)]
    exact max_eq_right (by norm_num)
  rw [hclamp, show (90 : ℝ) + 5.11 = 95.11 by norm_num]
  have harg : deg2rad (90 + 10.3 / 95.11)
      = π / 2 + deg2rad (10.3 / 95.11) := by
    unfold deg2rad; ring
  rw [harg, tan_pi_div_two_add, div_neg, div_inv_eq_mul]
  ring

lemma atmos_refrac_ninety_neg (temp pressure : ℝ)
    (ht : 0 < 273.0 + temp) (hp : 0 < pressure) :
    atmos_refrac 90 temp pressure < 0 := by
  rw [atmos_refrac_ninety_eq]
  have hx_pos : 0 < deg2rad (10.3 / 95.11) := by
    unfold deg2rad
    positivity
  have hx_lt : deg2rad (10.3 / 95.11) < π / 2 := by
    unfold deg2rad
    nlinarith [Real.pi_pos]
  have htan := Real.lt_tan hx_pos hx_lt
  have hlow : (0.0019279 : ℝ) < 1.02 * deg2rad (10.3 / 95.11) := by
    unfold deg2rad
    nlinarith [Real.pi_gt_d6]
  have hneg : (0.0019279 : ℝ)
      - 1.02 * Real.tan (deg2rad (10.3 / 95.11)) < 0 := by
    nlinarith
  have hscale : 0 < (pressure / 101.0) * (283.0 / (273.0 + temp)) :=
    mul_pos (div_pos hp (by norm_num)) (div_pos (by norm_num) ht)
  exact mul_neg_of_neg_of_pos
    (mul_neg_of_neg_of_pos hneg hscale) (by norm_num)

lemma flat_tri_norm_z_pos (x0 y0 x1 y1 x2 y2 z0 : ℝ)
    (h : 0 < (x2 - x1) * (y0 - y1) - (y2 - y1) * (x0 - x1)) :
    0 < (triangle_normal_area ⟨x0, y0, z0⟩ ⟨x1, y1, z0⟩ ⟨x2, y2, z0⟩).1.z := by
  show 0 < ((x2 - x1) * (y0 - y1) - (y2 - y1) * (x0 - x1))
      / Real.sqrt (((y2 - y1) * (z0 - z0) - (z0 - z0) * (y0 - y1))
          * ((y2 - y1) * (z0 - z0) - (z0 - z0) * (y0 - y1))
        + ((z0 - z0) * (x0 - x1) - (x2 - x1) * (z0 - z0))
          * ((z0 - z0) * (x0 - x1) - (x2 - x1) * (z0 - z0))
        + ((x2 - x1) * (y0 - y1) - (y2 - y1) * (x0 - x1))
          * ((x2 - x1) * (y0 - y1) - (y2 - y1) * (x0 - x1)))
  have harg : (((y2 - y1) * (z0 - z0) - (z0 - z0) * (y0 - y1))
        * ((y2 - y1) * (z0 - z0) - (z0 - z0) * (y0 - y1))
      + ((z0 - z0) * (x0 - x1) - (x2 - x1) * (z0 - z0))
        * ((z0 - z0) * (x0 - x1) - (x2 - x1) * (z0 - z0))
      + ((x2 - x1) * (y0 - y1) - (y2 - y1) * (x0 - x1))
        * ((x2 - x1) * (y0 - y1) - (y2 - y1) * (x0 - x1)))
      = ((x2 - x1) * (y0 - y1) - (y2 - y1) * (x0 - x1))
        * ((x2 - x1) * (y0 - y1) - (y2 - y1) * (x0 - x1)) := by ring
  rw [harg, Real.sqrt_mul_self h.le]
  exact div_pos h h

/-! Claim theorems. -/

/-- C6: for every configuration with odd `pixel_per_gc`, a call to
`sw_dir_cor_coherent_rp8` returns immediately (after printing an error)
without writing any element of the output array: the call is a no-op on
the caller's buffer. -/
theorem rp8_odd_pixel_per_gc_noop (T : CppTerrain) (occ : Ray → Bool)
    (sun_pos : Vec3) (buf : ℕ → FVal)
    (hodd : T.pixel_per_gc_cl % 2 = 1) :
    T.sw_dir_cor_coherent_rp8 occ sun_pos buf = buf := by
  unfold CppTerrain.sw_dir_cor_coherent_rp8
  rw [if_pos (by omega)]

/-- Witness for C6: the concrete configuration with `pixel_per_gc = 3`
leaves a buffer of sevens untouched. -/
theorem rp8_odd_pixel_per_gc_noop_witness :
    T0odd.pixel_per_gc_cl % 2 = 1 ∧
      T0odd.sw_dir_cor_coherent_rp8 occNone sun0 bufSeven = bufSeven :=
  ⟨rfl, rp8_odd_pixel_per_gc_noop T0odd occNone sun0 bufSeven rfl⟩

/-- C10: `vec_unit` divides each component by the Euclidean magnitude;
for a nonzero vector the divisor is strictly positive and the result has
Euclidean norm 1. -/
theorem vec_unit_spec (v : Vec3)
    (h : ¬(v.x = 0 ∧ v.y = 0 ∧ v.z = 0)) :
    0 < vecMag v ∧
    vec_unit v = ⟨v.x / vecMag v, v.y / vecMag v, v.z / vecMag v⟩ ∧
    vecMag (vec_unit v) = 1 := by
  have hS : 0 < v.x * v.x + v.y * v.y + v.z * v.z := by
    rcases not_and_or.mp h with hx | hyz
    · have := mul_self_pos.mpr hx
      nlinarith [mul_self_nonneg v.y, mul_self_nonneg v.z]
    · rcases not_and_or.mp hyz with hy | hz
      · have := mul_self_pos.mpr hy
        nlinarith [mul_self_nonneg v.x, mul_self_nonneg v.z]
      · have := mul_self_pos.mpr hz
        nlinarith [mul_self_nonneg v.x, mul_self_nonneg v.y]
  have hmag : 0 < vecMag v := Real.sqrt_pos.mpr hS
  refine ⟨hmag, rfl, ?_⟩
  have hunit : vec_unit v
      = ⟨v.x / vecMag v, v.y / vecMag v, v.z / vecMag v⟩ := rfl
  rw [hunit]
  unfold vecMag
  have hins : v.x / Real.sqrt (v.x * v.x + v.y * v.y + v.z * v.z)
        * (v.x / Real.sqrt (v.x * v.x + v.y * v.y + v.z * v.z))
      + v.y / Real.sqrt (v.x * v.x + v.y * v.y + v.z * v.z)
        * (v.y / Real.sqrt (v.x * v.x + v.y * v.y + v.z * v.z))
      + v.z / Real.sqrt (v.x * v.x + v.y * v.y + v.z * v.z)
        * (v.z / Real.sqrt (v.x * v.x + v.y * v.y + v.z * v.z))
      = (v.x * v.x + v.y * v.y + v.z * v.z)
        / (Real.sqrt (v.x * v.x + v.y * v.y + v.z * v.z)
          * Real.sqrt (v.x * v.x + v.y * v.y + v.z * v.z)) := by
    ring
  rw [hins, Real.mul_self_sqrt hS.le, div_self hS.ne']
  exact Real.sqrt_one

/-- Witness for C10 at the concrete vector `(3, 0, 4)`. -/
theorem vec_unit_spec_witness :
    ¬((Vec3.mk 3 0 4).x = 0 ∧ (Vec3.mk 3 0 4).y = 0
        ∧ (Vec3.mk 3 0 4).z = 0) ∧
    (0 < vecMag ⟨3, 0, 4⟩ ∧
      vec_unit ⟨3, 0, 4⟩ = ⟨(Vec3.mk 3 0 4).x / vecMag ⟨3, 0, 4⟩,
        (Vec3.mk 3 0 4).y / vecMag ⟨3, 0, 4⟩,
        (Vec3.mk 3 0 4).z / vecMag ⟨3, 0, 4⟩⟩ ∧
      vecMag (vec_unit ⟨3, 0, 4⟩) = 1) :=
  ⟨by norm_num, vec_unit_spec ⟨3, 0, 4⟩ (by norm_num)⟩

/-- C9: the refraction step of the single-ray engine modifies only the
sun vector and the derived dot product with the horizontal normal; the
horizontal normal, the tilted normal, both areas, the surface-enlargement
factor, the ray origin, the tilted centroid and the cached horizontal
vertices are all left unchanged, and the new dot product is the dot
product of the unchanged horizontal normal with the new sun vector. (The
cached `CppTerrain` configuration is not even an input of the step, so it
is unchanged by construction.) -/
theorem refrac_step_frame (st : TriState) :
    (refracStep st).norm_hori = st.norm_hori ∧
    (refracStep st).norm_tilt = st.norm_tilt ∧
    (refracStep st).area_tilt = st.area_tilt ∧
    (refracStep st).area_hori = st.area_hori ∧
    (refracStep st).surf_enl_fac = st.surf_enl_fac ∧
    (refracStep st).ray_org = st.ray_org ∧
    (refracStep st).cent = st.cent ∧
    (refracStep st).hori_v0 = st.hori_v0 ∧
    (refracStep st).hori_v1 = st.hori_v1 ∧
    (refracStep st).hori_v2 = st.hori_v2 ∧
    (refracStep st).dot_prod_hs
      = dotp st.norm_hori (refracStep st).sun :=
  ⟨rfl, rfl, rfl, rfl, rfl, rfl, rfl, rfl, rfl, rfl, rfl⟩

/-- C7 counterexample: at the clamp boundary the refraction correction is
not exactly zero; at 90 degrees elevation with standard conditions
(10 degrees Celsius, 101 kPa) `atmos_refrac` returns a strictly negative
(tiny) value, so the apparent sun vector is not exactly the true sun
vector. -/
theorem atmos_refrac_at_ninety_ne_zero : atmos_refrac 90 10 101 ≠ 0 :=
  ne_of_lt (atmos_refrac_ninety_neg 10 101 (by norm_num) (by norm_num))

/-- C7 amended: `atmos_refrac` clamps the elevation to [-1, 90] degrees,
computes `1.02 / tan (deg2rad (elev + 10.3 / (elev + 5.11)))`, adds
`0.0019279`, scales by `(pressure / 101) * (283 / (273 + temp))` and
divides by 60; at 90 degrees the result is approximately, but not
exactly, zero - it is strictly negative for any physical temperature and
pressure. -/
theorem atmos_refrac_formula_and_sign (elev temp pressure : ℝ)
    (ht : 0 < 273.0 + temp) (hp : 0 < pressure) :
    atmos_refrac elev temp pressure =
      (1.02 / Real.tan (deg2rad (max (-1.0) (min elev 90.0)
          + 10.3 / (max (-1.0) (min elev 90.0) + 5.11))) + 0.0019279)
        * (pressure / 101.0) * (283.0 / (273.0 + temp)) / 60 ∧
    atmos_refrac 90 temp pressure < 0 := by
  constructor
  · simp only [atmos_refrac]
    ring
  · exact atmos_refrac_ninety_neg temp pressure ht hp

/-- Witness for C7 at elevation 45 degrees, 10 degrees Celsius and
101 kPa. -/
theorem atmos_refrac_formula_and_sign_witness :
    (0 : ℝ) < 273.0 + 10 ∧ (0 : ℝ) < 101 ∧
    (atmos_refrac 45 10 101 =
      (1.02 / Real.tan (deg2rad (max (-1.0) (min (45 : ℝ) 90.0)
          + 10.3 / (max (-1.0) (min (45 : ℝ) 90.0) + 5.11))) + 0.0019279)
        * ((101 : ℝ) / 101.0) * (283.0 / (273.0 + 10)) / 60 ∧
      atmos_refrac 90 10 101 < 0) :=
  ⟨by norm_num, by norm_num,
    atmos_refrac_formula_and_sign 45 10 101 (by norm_num) (by norm_num)⟩

/-- C2: in the single-ray engine, the per-triangle occlusion ray always
has `tnear = 0` and `tfar = dist_search_km * 1000` metres; a triangle
whose (possibly refracted) sun vector satisfies
`n_h . s <= cos (deg2rad ang_max)` or `n_t . s <= 0` contributes 0 and
issues no ray (both comparisons are non-strict, so the exact boundary is
rejected); otherwise exactly one ray is issued and the triangle
contributes 0 on a hit and the clipped factor
`min ((n_t . s / n_h . s) * surf_enl_fac) sw_dir_cor_max` on a miss. -/
theorem sw_dir_cor_tri_cases (T : CppTerrain) (occ : Ray → Bool)
    (sun_pos : Vec3) (refrac_cor : ℤ) (k m n : ℕ)
    (hd : 0 < T.dist_search_km) :
    (triRay T (triStateFinal T sun_pos refrac_cor k m n)).tnear = 0 ∧
    (triRay T (triStateFinal T sun_pos refrac_cor k m n)).tfar
      = T.dist_search_km * 1000 ∧
    ((triStateFinal T sun_pos refrac_cor k m n).dot_prod_hs
        ≤ Real.cos (deg2rad T.ang_max_cl)
      ∨ dot_prod_ts (triStateFinal T sun_pos refrac_cor k m n) ≤ 0 →
      sw_dir_cor_tri T occ sun_pos refrac_cor k m n = 0 ∧
      sw_dir_cor_tri_rays T sun_pos refrac_cor k m n = 0) ∧
    (Real.cos (deg2rad T.ang_max_cl)
        < (triStateFinal T sun_pos refrac_cor k m n).dot_prod_hs →
      0 < dot_prod_ts (triStateFinal T sun_pos refrac_cor k m n) →
      sw_dir_cor_tri_rays T sun_pos refrac_cor k m n = 1 ∧
      sw_dir_cor_tri T occ sun_pos refrac_cor k m n =
        (if occ (triRay T (triStateFinal T sun_pos refrac_cor k m n)) = true
         then 0
         else min (dot_prod_ts (triStateFinal T sun_pos refrac_cor k m n)
             / (triStateFinal T sun_pos refrac_cor k m n).dot_prod_hs
             * (triStateFinal T sun_pos refrac_cor k m n).surf_enl_fac)
           T.sw_dir_cor_max_cl)) := by
  refine ⟨?_, ?_, ?_, ?_⟩
  · show (0.0 : ℝ) = 0
    norm_num
  · show T.dist_search_cl = T.dist_search_km * 1000
    unfold CppTerrain.dist_search_cl
    norm_num
  · intro hcull
    constructor
    · simp only [sw_dir_cor_tri]
      rcases hcull with h1 | h2
      · rw [if_pos (show (triStateFinal T sun_pos refrac_cor k m n).dot_prod_hs
            ≤ T.dot_prod_min_cl from h1)]
      · by_cases h1 : (triStateFinal T sun_pos refrac_cor k m n).dot_prod_hs
            ≤ T.dot_prod_min_cl
        · rw [if_pos h1]
        · rw [if_neg h1, if_pos h2]
    · simp only [sw_dir_cor_tri_rays]
      rcases hcull with h1 | h2
      · rw [if_pos (show (triStateFinal T sun_pos refrac_cor k m n).dot_prod_hs
            ≤ T.dot_prod_min_cl from h1)]
      · by_cases h1 : (triStateFinal T sun_pos refrac_cor k m n).dot_prod_hs
            ≤ T.dot_prod_min_cl
        · rw [if_pos h1]
        · rw [if_neg h1, if_pos h2]
  · intro hgt hts
    have hn1 : ¬((triStateFinal T sun_pos refrac_cor k m n).dot_prod_hs
        ≤ T.dot_prod_min_cl) := not_le.mpr hgt
    have hn2 : ¬(dot_prod_ts (triStateFinal T sun_pos refrac_cor k m n) ≤ 0) :=
      not_le.mpr hts
    constructor
    · simp only [sw_dir_cor_tri_rays]
      rw [if_neg hn1, if_neg hn2]
    · simp only [sw_dir_cor_tri]
      rw [if_neg hn1, if_neg hn2]
      by_cases hocc : occ (triRay T (triStateFinal T sun_pos refrac_cor k m n))
          = true
      · rw [if_pos hocc, if_neg]
        rintro ⟨hf, _⟩
        rw [hocc] at hf
        exact Bool.noConfusion hf
      · have hf : occ (triRay T (triStateFinal T sun_pos refrac_cor k m n))
            = false := by simpa using hocc
        have htfar : (0 : ℝ)
            < (triRay T (triStateFinal T sun_pos refrac_cor k m n)).tfar := by
          show (0 : ℝ) < T.dist_search_cl
          unfold CppTerrain.dist_search_cl
          exact mul_pos hd (by norm_num)
        rw [if_pos ⟨hf, htfar⟩, if_neg hocc]

/-- Witness for C2 at the concrete configuration `T0`, triangle
`(k, m, n) = (0, 0, 0)`, no refraction. -/
theorem sw_dir_cor_tri_cases_witness :
    (0 : ℝ) < T0.dist_search_km ∧
    ((triRay T0 (triStateFinal T0 sun0 0 0 0 0)).tnear = 0 ∧
     (triRay T0 (triStateFinal T0 sun0 0 0 0 0)).tfar
       = T0.dist_search_km * 1000 ∧
     ((triStateFinal T0 sun0 0 0 0 0).dot_prod_hs
         ≤ Real.cos (deg2rad T0.ang_max_cl)
       ∨ dot_prod_ts (triStateFinal T0 sun0 0 0 0 0) ≤ 0 →
       sw_dir_cor_tri T0 occNone sun0 0 0 0 0 = 0 ∧
       sw_dir_cor_tri_rays T0 sun0 0 0 0 0 = 0) ∧
     (Real.cos (deg2rad T0.ang_max_cl)
         < (triStateFinal T0 sun0 0 0 0 0).dot_prod_hs →
       0 < dot_prod_ts (triStateFinal T0 sun0 0 0 0 0) →
       sw_dir_cor_tri_rays T0 sun0 0 0 0 0 = 1 ∧
       sw_dir_cor_tri T0 occNone sun0 0 0 0 0 =
         (if occNone (triRay T0 (triStateFinal T0 sun0 0 0 0 0)) = true
          then 0
          else min (dot_prod_ts (triStateFinal T0 sun0 0 0 0 0)
              / (triStateFinal T0 sun0 0 0 0 0).dot_prod_hs
              * (triStateFinal T0 sun0 0 0 0 0).surf_enl_fac)
            T0.sw_dir_cor_max_cl))) :=
  ⟨zero_lt_one, sw_dir_cor_tri_cases T0 occNone sun0 0 0 0 0 zero_lt_one⟩

/-- C4: the single-ray engine accumulates into the caller-supplied buffer
(`out[c] = out[c] + contribution`) and never zero-initialises it, so a
processed cell with prior value `b0` ends at
`(b0 + sum of contributions) / (pixel_per_gc^2 * 2)`; a processed cell
all of whose triangles are culled or occluded keeps the buffer's prior
content divided by the fixed count; the coherent-batch and packet-8
engines instead overwrite the cell by assignment, independently of the
buffer's prior content. -/
theorem sw_dir_cor_accumulates_into_buffer (T : CppTerrain)
    (occ : Ray → Bool) (sun_pos : Vec3) (refrac_cor : ℤ) (buf : ℕ → FVal)
    {i j : ℕ} (hi : i < T.num_gc_y_cl) (hj : j < T.num_gc_x_cl)
    (hmask : T.mask_cl (lin_ind_2d T.num_gc_x_cl i j) = 1) :
    (∀ b0 : ℝ, buf (lin_ind_2d T.num_gc_x_cl i j) = FVal.val b0 →
      T.sw_dir_cor occ sun_pos buf refrac_cor (lin_ind_2d T.num_gc_x_cl i j)
        = FVal.val ((b0 + (cellContribList T occ sun_pos refrac_cor i j).sum)
            / T.num_tri_per_gc)) ∧
    ((∀ x ∈ cellContribList T occ sun_pos refrac_cor i j, x = 0) →
      T.sw_dir_cor occ sun_pos buf refrac_cor (lin_ind_2d T.num_gc_x_cl i j)
        = (buf (lin_ind_2d T.num_gc_x_cl i j)).divR T.num_tri_per_gc) ∧
    (∀ buf2 : ℕ → FVal,
      T.sw_dir_cor_coherent occ sun_pos buf2 (lin_ind_2d T.num_gc_x_cl i j)
        = FVal.val (occAgg occ (cellPairList T sun_pos i j)
            / T.num_tri_per_gc)) ∧
    (∀ buf2 : ℕ → FVal, T.pixel_per_gc_cl % 2 = 0 →
      T.sw_dir_cor_coherent_rp8 occ sun_pos buf2
          (lin_ind_2d T.num_gc_x_cl i j)
        = FVal.val (rp8Agg T occ sun_pos i j / T.num_tri_per_gc)) := by
  refine ⟨?_, ?_, ?_, ?_⟩
  · intro b0 hb
    rw [sw_dir_cor_apply T occ sun_pos buf refrac_cor hi hj, if_pos hmask,
      hb, foldl_addR_val]
    rfl
  · intro hz
    have hsum : (cellContribList T occ sun_pos refrac_cor i j).sum = 0 :=
      List.sum_eq_zero hz
    rw [sw_dir_cor_apply T occ sun_pos buf refrac_cor hi hj, if_pos hmask]
    cases hb : buf (lin_ind_2d T.num_gc_x_cl i j) with
    | nan => rw [foldl_addR_nan]
    | val b0 => rw [foldl_addR_val, hsum, add_zero]
  · intro buf2
    rw [sw_dir_cor_coherent_apply T occ sun_pos buf2 hi hj, if_pos hmask]
  · intro buf2 heven
    rw [sw_dir_cor_rp8_apply T occ sun_pos buf2 heven hi hj, if_pos hmask]

/-- Witness for C4 at the concrete configuration `T0` with a buffer that
holds -8 everywhere. -/
theorem sw_dir_cor_accumulates_into_buffer_witness :
    (0 : ℕ) < T0.num_gc_y_cl ∧ (0 : ℕ) < T0.num_gc_x_cl ∧
    T0.mask_cl (lin_ind_2d T0.num_gc_x_cl 0 0) = 1 ∧
    ((∀ b0 : ℝ, bufNeg (lin_ind_2d T0.num_gc_x_cl 0 0) = FVal.val b0 →
      T0.sw_dir_cor occNone sun0 bufNeg 0 (lin_ind_2d T0.num_gc_x_cl 0 0)
        = FVal.val ((b0 + (cellContribList T0 occNone sun0 0 0 0).sum)
            / T0.num_tri_per_gc)) ∧
    ((∀ x ∈ cellContribList T0 occNone sun0 0 0 0, x = 0) →
      T0.sw_dir_cor occNone sun0 bufNeg 0 (lin_ind_2d T0.num_gc_x_cl 0 0)
        = (bufNeg (lin_ind_2d T0.num_gc_x_cl 0 0)).divR T0.num_tri_per_gc) ∧
    (∀ buf2 : ℕ → FVal,
      T0.sw_dir_cor_coherent occNone sun0 buf2 (lin_ind_2d T0.num_gc_x_cl 0 0)
        = FVal.val (occAgg occNone (cellPairList T0 sun0 0 0)
            / T0.num_tri_per_gc)) ∧
    (∀ buf2 : ℕ → FVal, T0.pixel_per_gc_cl % 2 = 0 →
      T0.sw_dir_cor_coherent_rp8 occNone sun0 buf2
          (lin_ind_2d T0.num_gc_x_cl 0 0)
        = FVal.val (rp8Agg T0 occNone sun0 0 0 / T0.num_tri_per_gc))) :=
  ⟨by decide, by decide, rfl,
    sw_dir_cor_accumulates_into_buffer T0 occNone sun0 0 bufNeg
      (by decide) (by decide) rfl⟩

/-- C1 counterexample: on the non-degenerate flat DEM of `T1` with the
sun below the horizon, both triangles of the processed cell are culled
by the Earth self-shadow test, so the single-ray engine never writes the
cell before the final division; with a caller buffer holding -8 the cell
ends at `-8 / 2 = -4 < 0`, violating the claimed invariant
`0 <= out[c] <= sw_dir_cor_max` for processed cells. -/
theorem sw_dir_cor_invariant_fails_nonzero_buffer :
    T1.mask_cl 0 = 1 ∧
    T1.sw_dir_cor occNone sun1 bufNeg 0 0 = FVal.val (-4) ∧
    ¬(0 : ℝ) ≤ -4 :=
  ⟨rfl, single_T1 occNone, by norm_num⟩

/-- C1 amended: provided the caller passes a zero-initialised buffer
element for the cell (the coherent-batch and packet-8 engines do not
need this), `ang_max` lies in (0, 90], `sw_dir_cor_max` is positive and
`pixel_per_gc` is at least 1, every engine writes NaN to the cell exactly
when its mask is not 1, and otherwise writes a finite value in
`[0, sw_dir_cor_max]`. -/
theorem out_nan_iff_masked_and_bounded (T : CppTerrain) (occ : Ray → Bool)
    (sun_pos : Vec3) (refrac_cor : ℤ) (buf : ℕ → FVal) {i j : ℕ}
    (hi : i < T.num_gc_y_cl) (hj : j < T.num_gc_x_cl)
    (hp : 0 < T.pixel_per_gc_cl)
    (hang1 : 0 < T.ang_max_cl) (hang2 : T.ang_max_cl ≤ 90)
    (hmax : 0 < T.sw_dir_cor_max_cl)
    (hbuf : buf (lin_ind_2d T.num_gc_x_cl i j) = FVal.val 0) :
    (T.mask_cl (lin_ind_2d T.num_gc_x_cl i j) ≠ 1 →
      T.sw_dir_cor occ sun_pos buf refrac_cor (lin_ind_2d T.num_gc_x_cl i j)
          = FVal.nan ∧
      T.sw_dir_cor_coherent occ sun_pos buf (lin_ind_2d T.num_gc_x_cl i j)
          = FVal.nan ∧
      (T.pixel_per_gc_cl % 2 = 0 →
        T.sw_dir_cor_coherent_rp8 occ sun_pos buf
            (lin_ind_2d T.num_gc_x_cl i j) = FVal.nan)) ∧
    (T.mask_cl (lin_ind_2d T.num_gc_x_cl i j) = 1 →
      (∃ x : ℝ,
        T.sw_dir_cor occ sun_pos buf refrac_cor (lin_ind_2d T.num_gc_x_cl i j)
            = FVal.val x ∧ 0 ≤ x ∧ x ≤ T.sw_dir_cor_max_cl) ∧
      (∃ x : ℝ,
        T.sw_dir_cor_coherent occ sun_pos buf (lin_ind_2d T.num_gc_x_cl i j)
            = FVal.val x ∧ 0 ≤ x ∧ x ≤ T.sw_dir_cor_max_cl) ∧
      (T.pixel_per_gc_cl % 2 = 0 →
        ∃ x : ℝ,
          T.sw_dir_cor_coherent_rp8 occ sun_pos buf
              (lin_ind_2d T.num_gc_x_cl i j)
            = FVal.val x ∧ 0 ≤ x ∧ x ≤ T.sw_dir_cor_max_cl)) := by
  have hmin := dot_prod_min_nonneg T hang1 hang2
  have hN := num_tri_per_gc_pos T hp
  have hdiv : ∀ s : ℝ, 0 ≤ s → s ≤ T.num_tri_per_gc * T.sw_dir_cor_max_cl →
      0 ≤ s / T.num_tri_per_gc ∧
        s / T.num_tri_per_gc ≤ T.sw_dir_cor_max_cl := by
    intro s h1 h2
    refine ⟨div_nonneg h1 hN.le, ?_⟩
    rw [div_le_iff₀ hN, mul_comm]
    exact h2
  constructor
  · intro hm
    refine ⟨?_, ?_, fun heven => ?_⟩
    · rw [sw_dir_cor_apply T occ sun_pos buf refrac_cor hi hj, if_neg hm]
      rfl
    · rw [sw_dir_cor_coherent_apply T occ sun_pos buf hi hj, if_neg hm]
    · rw [sw_dir_cor_rp8_apply T occ sun_pos buf heven hi hj, if_neg hm]
  · intro hm
    have hs := cellSum_bounds T occ sun_pos refrac_cor i j hmin hmax.le
    have hs0 := cellSum_bounds T occ sun_pos 0 i j hmin hmax.le
    refine ⟨?_, ?_, fun heven => ?_⟩
    · refine ⟨(cellContribList T occ sun_pos refrac_cor i j).sum
          / T.num_tri_per_gc, ?_, hdiv _ hs.1 hs.2⟩
      rw [sw_dir_cor_apply T occ sun_pos buf refrac_cor hi hj, if_pos hm,
        hbuf, foldl_addR_val, zero_add]
      rfl
    · refine ⟨(cellContribList T occ sun_pos 0 i j).sum
          / T.num_tri_per_gc, ?_, hdiv _ hs0.1 hs0.2⟩
      rw [sw_dir_cor_coherent_apply T occ sun_pos buf hi hj, if_pos hm,
        occAgg_cellPairList]
    · refine ⟨(cellContribList T occ sun_pos 0 i j).sum
          / T.num_tri_per_gc, ?_, hdiv _ hs0.1 hs0.2⟩
      rw [sw_dir_cor_rp8_apply T occ sun_pos buf heven hi hj, if_pos hm,
        rp8Agg_eq T occ sun_pos i j heven]

/-- Witness for the amended C1 at the concrete configuration `T1` with a
zero-initialised buffer. -/
theorem out_nan_iff_masked_and_bounded_witness :
    (0 : ℕ) < T1.num_gc_y_cl ∧ (0 : ℕ) < T1.num_gc_x_cl ∧
    0 < T1.pixel_per_gc_cl ∧
    (0 : ℝ) < T1.ang_max_cl ∧ T1.ang_max_cl ≤ 90 ∧
    (0 : ℝ) < T1.sw_dir_cor_max_cl ∧
    bufZero (lin_ind_2d T1.num_gc_x_cl 0 0) = FVal.val 0 ∧
    ((T1.mask_cl (lin_ind_2d T1.num_gc_x_cl 0 0) ≠ 1 →
      T1.sw_dir_cor occNone sun1 bufZero 0 (lin_ind_2d T1.num_gc_x_cl 0 0)
          = FVal.nan ∧
      T1.sw_dir_cor_coherent occNone sun1 bufZero
          (lin_ind_2d T1.num_gc_x_cl 0 0) = FVal.nan ∧
      (T1.pixel_per_gc_cl % 2 = 0 →
        T1.sw_dir_cor_coherent_rp8 occNone sun1 bufZero
            (lin_ind_2d T1.num_gc_x_cl 0 0) = FVal.nan)) ∧
    (T1.mask_cl (lin_ind_2d T1.num_gc_x_cl 0 0) = 1 →
      (∃ x : ℝ,
        T1.sw_dir_cor occNone sun1 bufZero 0 (lin_ind_2d T1.num_gc_x_cl 0 0)
            = FVal.val x ∧ 0 ≤ x ∧ x ≤ T1.sw_dir_cor_max_cl) ∧
      (∃ x : ℝ,
        T1.sw_dir_cor_coherent occNone sun1 bufZero
            (lin_ind_2d T1.num_gc_x_cl 0 0)
          = FVal.val x ∧ 0 ≤ x ∧ x ≤ T1.sw_dir_cor_max_cl) ∧
      (T1.pixel_per_gc_cl % 2 = 0 →
        ∃ x : ℝ,
          T1.sw_dir_cor_coherent_rp8 occNone sun1 bufZero
              (lin_ind_2d T1.num_gc_x_cl 0 0)
            = FVal.val x ∧ 0 ≤ x ∧ x ≤ T1.sw_dir_cor_max_cl))) :=
  ⟨by decide, by decide, by decide, (show (0 : ℝ) < 90 by norm_num),
    (show (90 : ℝ) ≤ 90 by norm_num), (show (0 : ℝ) < 5 by norm_num), rfl,
    out_nan_iff_masked_and_bounded T1 occNone sun1 0 bufZero
      (by decide) (by decide) (by decide) (show (0 : ℝ) < 90 by norm_num)
      (show (90 : ℝ) ≤ 90 by norm_num) (show (0 : ℝ) < 5 by norm_num) rfl⟩

/-- C3 counterexample: on the non-degenerate flat DEM of `T1` with the
sun below the horizon, both per-triangle contributions of the processed
cell are 0 (culled by the Earth self-shadow test), yet with a caller
buffer holding -8 the single-ray engine's final value is `-4`, not
`0 / (pixel_per_gc^2 * 2)`. -/
theorem sum_div_fixed_count_fails_nonzero_buffer :
    T1.mask_cl 0 = 1 ∧
    (cellContribList T1 occNone sun1 0 0 0).sum = 0 ∧
    T1.sw_dir_cor occNone sun1 bufNeg 0 0 = FVal.val (-4) ∧
    FVal.val (-4) ≠ FVal.val ((0 : ℝ) / T1.num_tri_per_gc) := by
  refine ⟨rfl, ?_, single_T1 occNone, ?_⟩
  · rw [cellContribList_T1]
    norm_num
  · simp only [ne_eq, FVal.val.injEq, zero_div]
    norm_num

/-- C3 amended: provided the caller passes a zero-initialised buffer
element for the cell (the coherent-batch and packet-8 engines do not
need this), every engine's final value for a processed cell is the sum
of its per-triangle contributions divided by the fixed count
`pixel_per_gc^2 * 2`, regardless of how many triangles were culled or
occluded. -/
theorem cell_value_eq_sum_div_fixed_count (T : CppTerrain)
    (occ : Ray → Bool) (sun_pos : Vec3) (refrac_cor : ℤ) (buf : ℕ → FVal)
    {i j : ℕ} (hi : i < T.num_gc_y_cl) (hj : j < T.num_gc_x_cl)
    (hmask : T.mask_cl (lin_ind_2d T.num_gc_x_cl i j) = 1)
    (hbuf : buf (lin_ind_2d T.num_gc_x_cl i j) = FVal.val 0) :
    T.sw_dir_cor occ sun_pos buf refrac_cor (lin_ind_2d T.num_gc_x_cl i j)
      = FVal.val ((cellContribList T occ sun_pos refrac_cor i j).sum
          / ((T.pixel_per_gc_cl ^ 2 * 2 : ℕ) : ℝ)) ∧
    T.sw_dir_cor_coherent occ sun_pos buf (lin_ind_2d T.num_gc_x_cl i j)
      = FVal.val ((cellContribList T occ sun_pos 0 i j).sum
          / ((T.pixel_per_gc_cl ^ 2 * 2 : ℕ) : ℝ)) ∧
    (T.pixel_per_gc_cl % 2 = 0 →
      T.sw_dir_cor_coherent_rp8 occ sun_pos buf (lin_ind_2d T.num_gc_x_cl i j)
        = FVal.val ((cellContribList T occ sun_pos 0 i j).sum
            / ((T.pixel_per_gc_cl ^ 2 * 2 : ℕ) : ℝ))) := by
  have hNcast : T.num_tri_per_gc = ((T.pixel_per_gc_cl ^ 2 * 2 : ℕ) : ℝ) := by
    unfold CppTerrain.num_tri_per_gc
    push_cast
    ring
  refine ⟨?_, ?_, fun heven => ?_⟩
  · rw [sw_dir_cor_apply T occ sun_pos buf refrac_cor hi hj, if_pos hmask,
      hbuf, foldl_addR_val, zero_add, ← hNcast]
    rfl
  · rw [sw_dir_cor_coherent_apply T occ sun_pos buf hi hj, if_pos hmask,
      occAgg_cellPairList, ← hNcast]
  · rw [sw_dir_cor_rp8_apply T occ sun_pos buf heven hi hj, if_pos hmask,
      rp8Agg_eq T occ sun_pos i j heven, ← hNcast]

/-- Witness for the amended C3 at the concrete configuration `T1` with a
zero-initialised buffer. -/
theorem cell_value_eq_sum_div_fixed_count_witness :
    (0 : ℕ) < T1.num_gc_y_cl ∧ (0 : ℕ) < T1.num_gc_x_cl ∧
    T1.mask_cl (lin_ind_2d T1.num_gc_x_cl 0 0) = 1 ∧
    bufZero (lin_ind_2d T1.num_gc_x_cl 0 0) = FVal.val 0 ∧
    (T1.sw_dir_cor occNone sun1 bufZero 0 (lin_ind_2d T1.num_gc_x_cl 0 0)
      = FVal.val ((cellContribList T1 occNone sun1 0 0 0).sum
          / ((T1.pixel_per_gc_cl ^ 2 * 2 : ℕ) : ℝ)) ∧
    T1.sw_dir_cor_coherent occNone sun1 bufZero (lin_ind_2d T1.num_gc_x_cl 0 0)
      = FVal.val ((cellContribList T1 occNone sun1 0 0 0).sum
          / ((T1.pixel_per_gc_cl ^ 2 * 2 : ℕ) : ℝ)) ∧
    (T1.pixel_per_gc_cl % 2 = 0 →
      T1.sw_dir_cor_coherent_rp8 occNone sun1 bufZero
          (lin_ind_2d T1.num_gc_x_cl 0 0)
        = FVal.val ((cellContribList T1 occNone sun1 0 0 0).sum
            / ((T1.pixel_per_gc_cl ^ 2 * 2 : ℕ) : ℝ)))) :=
  ⟨by decide, by decide, rfl, rfl,
    cell_value_eq_sum_div_fixed_count T1 occNone sun1 0 bufZero
      (by decide) (by decide) rfl rfl⟩

/-- C5 counterexample: for identical inputs - the non-degenerate flat
DEM of `T1`, the sun below the horizon, and an identical caller buffer
holding -8 - the single-ray engine (refraction off) and the
coherent-batch engine disagree on the processed cell: the former
accumulates into the buffer and returns -4, the latter assigns and
returns 0. -/
theorem engines_disagree_nonzero_buffer :
    T1.sw_dir_cor occNone sun1 bufNeg 0 0
      ≠ T1.sw_dir_cor_coherent occNone sun1 bufNeg 0 := by
  rw [single_T1 occNone, coherent_T1 occNone bufNeg]
  simp only [ne_eq, FVal.val.injEq]
  norm_num

/-- C5 amended: provided the caller buffers are zero-initialised at the
cell (needed by the single-ray engine, which accumulates into its
buffer) and `pixel_per_gc` is even (required by the packet-8 engine),
the single-ray engine with `refrac_cor = 0`, the coherent-batch engine
and the packet-8 engine produce equal per-cell outputs in exact
arithmetic. -/
theorem engines_agree_zero_buffer (T : CppTerrain) (occ : Ray → Bool)
    (sun_pos : Vec3) (buf : ℕ → FVal) {i j : ℕ}
    (hi : i < T.num_gc_y_cl) (hj : j < T.num_gc_x_cl)
    (hbuf : buf (lin_ind_2d T.num_gc_x_cl i j) = FVal.val 0)
    (heven : T.pixel_per_gc_cl % 2 = 0) :
    T.sw_dir_cor occ sun_pos buf 0 (lin_ind_2d T.num_gc_x_cl i j)
      = T.sw_dir_cor_coherent occ sun_pos buf (lin_ind_2d T.num_gc_x_cl i j) ∧
    T.sw_dir_cor_coherent occ sun_pos buf (lin_ind_2d T.num_gc_x_cl i j)
      = T.sw_dir_cor_coherent_rp8 occ sun_pos buf
          (lin_ind_2d T.num_gc_x_cl i j) := by
  rw [sw_dir_cor_apply T occ sun_pos buf 0 hi hj,
    sw_dir_cor_coherent_apply T occ sun_pos buf hi hj,
    sw_dir_cor_rp8_apply T occ sun_pos buf heven hi hj]
  by_cases hm : T.mask_cl (lin_ind_2d T.num_gc_x_cl i j) = 1
  · rw [if_pos hm, if_pos hm, if_pos hm, hbuf, foldl_addR_val, zero_add,
      occAgg_cellPairList, rp8Agg_eq T occ sun_pos i j heven]
    exact ⟨rfl, rfl⟩
  · rw [if_neg hm, if_neg hm, if_neg hm]
    exact ⟨rfl, rfl⟩

/-- Witness for the amended C5 at the concrete even-sized configuration
`T1even` with zero-initialised buffers. -/
theorem engines_agree_zero_buffer_witness :
    (0 : ℕ) < T1even.num_gc_y_cl ∧ (0 : ℕ) < T1even.num_gc_x_cl ∧
    bufZero (lin_ind_2d T1even.num_gc_x_cl 0 0) = FVal.val 0 ∧
    T1even.pixel_per_gc_cl % 2 = 0 ∧
    (T1even.sw_dir_cor occNone sun1 bufZero 0
        (lin_ind_2d T1even.num_gc_x_cl 0 0)
      = T1even.sw_dir_cor_coherent occNone sun1 bufZero
          (lin_ind_2d T1even.num_gc_x_cl 0 0) ∧
    T1even.sw_dir_cor_coherent occNone sun1 bufZero
        (lin_ind_2d T1even.num_gc_x_cl 0 0)
      = T1even.sw_dir_cor_coherent_rp8 occNone sun1 bufZero
          (lin_ind_2d T1even.num_gc_x_cl 0 0)) :=
  ⟨by decide, by decide, rfl, rfl,
    engines_agree_zero_buffer T1even occNone sun1 bufZero
      (by decide) (by decide) rfl rfl⟩

/-- C8: `triangle_normal_area` returns the unit vector of
`(v2 - v1) x (v0 - v1)` as the normal and half that cross product's
magnitude as the area; for the lower-left and upper-right vertex
orderings produced by the triangulation indexers, the normal has a
strictly positive z component on a flat DEM grid (four co-planar
vertices with x increasing along columns and y increasing along
rows). -/
theorem triangle_normals_upward_flat_dem (vg : ℕ → ℝ) (dim1 i j : ℕ)
    (xj xj1 yi yi1 z0 : ℝ)
    (h00 : fetchVert vg ((i * dim1 + j) * 3) = ⟨xj, yi, z0⟩)
    (h01 : fetchVert vg ((i * dim1 + j + 1) * 3) = ⟨xj1, yi, z0⟩)
    (h10 : fetchVert vg (((i + 1) * dim1 + j) * 3) = ⟨xj, yi1, z0⟩)
    (h11 : fetchVert vg (((i + 1) * dim1 + j + 1) * 3) = ⟨xj1, yi1, z0⟩)
    (hx : xj < xj1) (hy : yi < yi1) :
    (∀ v0 v1 v2 : Vec3,
      triangle_normal_area v0 v1 v2 =
        (vec_unit (cross_prod ⟨v2.x - v1.x, v2.y - v1.y, v2.z - v1.z⟩
            ⟨v0.x - v1.x, v0.y - v1.y, v0.z - v1.z⟩),
         vecMag (cross_prod ⟨v2.x - v1.x, v2.y - v1.y, v2.z - v1.z⟩
            ⟨v0.x - v1.x, v0.y - v1.y, v0.z - v1.z⟩) / 2)) ∧
    0 < (triangle_normal_area
        (fetchVert vg (triangle_vert_ll dim1 i j).1)
        (fetchVert vg (triangle_vert_ll dim1 i j).2.1)
        (fetchVert vg (triangle_vert_ll dim1 i j).2.2)).1.z ∧
    0 < (triangle_normal_area
        (fetchVert vg (triangle_vert_ur dim1 i j).1)
        (fetchVert vg (triangle_vert_ur dim1 i j).2.1)
        (fetchVert vg (triangle_vert_ur dim1 i j).2.2)).1.z := by
  refine ⟨fun v0 v1 v2 => ?_, ?_, ?_⟩
  · unfold triangle_normal_area vec_unit cross_prod vecMag
    norm_num
  · show 0 < (triangle_normal_area
        (fetchVert vg ((i * dim1 + j) * 3))
        (fetchVert vg ((i * dim1 + j + 1) * 3))
        (fetchVert vg (((i + 1) * dim1 + j) * 3))).1.z
    rw [h00, h01, h10]
    exact flat_tri_norm_z_pos xj yi xj1 yi xj yi1 z0 (by nlinarith)
  · show 0 < (triangle_normal_area
        (fetchVert vg ((i * dim1 + j + 1) * 3))
        (fetchVert vg (((i + 1) * dim1 + j + 1) * 3))
        (fetchVert vg (((i + 1) * dim1 + j) * 3))).1.z
    rw [h01, h11, h10]
    exact flat_tri_norm_z_pos xj1 yi xj1 yi1 xj yi1 z0 (by nlinarith)

/-- Witness for C8 on a concrete 2x2 flat DEM with unit spacing. -/
theorem triangle_normals_upward_flat_dem_witness :
    fetchVert wgrid ((0 * 2 + 0) * 3) = ⟨0, 0, 0⟩ ∧
    fetchVert wgrid ((0 * 2 + 0 + 1) * 3) = ⟨1, 0, 0⟩ ∧
    fetchVert wgrid (((0 + 1) * 2 + 0) * 3) = ⟨0, 1, 0⟩ ∧
    fetchVert wgrid (((0 + 1) * 2 + 0 + 1) * 3) = ⟨1, 1, 0⟩ ∧
    (0 : ℝ) < 1 ∧
    ((∀ v0 v1 v2 : Vec3,
      triangle_normal_area v0 v1 v2 =
        (vec_unit (cross_prod ⟨v2.x - v1.x, v2.y - v1.y, v2.z - v1.z⟩
            ⟨v0.x - v1.x, v0.y - v1.y, v0.z - v1.z⟩),
         vecMag (cross_prod ⟨v2.x - v1.x, v2.y - v1.y, v2.z - v1.z⟩
            ⟨v0.x - v1.x, v0.y - v1.y, v0.z - v1.z⟩) / 2)) ∧
    0 < (triangle_normal_area
        (fetchVert wgrid (triangle_vert_ll 2 0 0).1)
        (fetchVert wgrid (triangle_vert_ll 2 0 0).2.1)
        (fetchVert wgrid (triangle_vert_ll 2 0 0).2.2)).1.z ∧
    0 < (triangle_normal_area
        (fetchVert wgrid (triangle_vert_ur 2 0 0).1)
        (fetchVert wgrid (triangle_vert_ur 2 0 0).2.1)
        (fetchVert wgrid (triangle_vert_ur 2 0 0).2.2)).1.z) :=
  ⟨by norm_num [fetchVert, wgrid], by norm_num [fetchVert, wgrid],
   by norm_num [fetchVert, wgrid], by norm_num [fetchVert, wgrid],
   by norm_num,
   triangle_normals_upward_flat_dem wgrid 2 0 0 0 1 0 1 0
     (by norm_num [fetchVert, wgrid]) (by norm_num [fetchVert, wgrid])
     (by norm_num [fetchVert, wgrid]) (by norm_num [fetchVert, wgrid])
     (by norm_num) (by norm_num)⟩

end

end SunPos
